import Mathlib

/-!
Verification of the fetch-extract-download-assemble pipeline of
`src/manga_downloader.py` (ZaZaZa Manga Pdf Downloader).

Modelling conventions:
* Python strings are `String` / `List Char`; downloaded bytes and decoded
  images are opaque `String` tokens.
* Python integers are `Int` (they are unbounded), counts are `Nat`.
* The impure steps (directory creation, HTTP GET, file writes, the final
  PDF save) are recorded in an explicit trace of `Effect` values; a raised
  `ValueError` is `Except.error`.
* The two regular expressions of `download_manga` are modelled by direct
  deterministic matchers: in both patterns every repeated character class
  excludes the character that terminates it, so greedy repetition, the lazy
  `.*?`, and the leftmost-match scan are all deterministic, and the
  scanners below compute exactly the Python `re.search`/`re.findall`
  semantics for these patterns.
* The thread pool is modelled by an arbitrary completion order `order` of
  the 1-based page indices: the `as_completed` loop of the source observes
  the futures in some permutation of the submitted indices, and every
  theorem below quantifies over all such permutations (or over all lists).
-/

/-- The single-quote character (spelled numerically). -/
def squote : Char := Char.ofNat 39

/-- The double-quote character (spelled numerically). -/
def dquote : Char := Char.ofNat 34

/-- Match a literal sequence of characters at the head of the input,
returning the remaining input on success. -/
def stripLit : List Char → List Char → Option (List Char)
  | [], s => some s
  | _ :: _, [] => none
  | a :: as, b :: bs => if a == b then stripLit as bs else none

/-- Split the input at the first occurrence of `stop`: the first component
is everything strictly before it, the second component starts with `stop`
itself when `stop` occurs (and is `[]` otherwise). -/
def scanTo (stop : Char) : List Char → List Char × List Char
  | [] => ([], [])
  | c :: cs =>
    if c == stop then ([], c :: cs)
    else
      let p := scanTo stop cs
      (c :: p.1, p.2)

/-- One attempt of the page-entry pattern
`\['(https?://[^']+)','',\"([^\"]+)\"` at the current position
(source line 148).  Returns the two capture groups (URL, path) and the
remaining input after the match. -/
def matchImageAt (s : List Char) : Option ((List Char × List Char) × List Char) :=
  match stripLit ['[', squote] s with
  | none => none
  | some s1 =>
    match stripLit "http".toList s1 with
    | none => none
    | some s2 =>
      let schemeRest : Option (List Char × List Char) :=
        match stripLit ("s://".toList) s2 with
        | some s3 => some ("https://".toList, s3)
        | none =>
          match stripLit ("://".toList) s2 with
          | some s3 => some ("http://".toList, s3)
          | none => none
      match schemeRest with
      | none => none
      | some (schemePart, s3) =>
        let body := scanTo squote s3
        if body.1.isEmpty then none
        else
          match stripLit [squote, ',', squote, squote, ',', dquote] body.2 with
          | none => none
          | some s4 =>
            let path := scanTo dquote s4
            if path.1.isEmpty then none
            else
              match stripLit [dquote] path.2 with
              | none => none
              | some rem => some ((schemePart ++ body.1, path.1), rem)

/-- Non-overlapping left-to-right scan of the page-entry pattern, i.e.
`re.findall` (source line 148).  Each loop step either consumes a whole
match (at least 8 characters) or advances one character, so the fuel
`s.length + 1` used by `findallImages` is never exhausted. -/
def findallImagesFuel : Nat → List Char → List (List Char × List Char)
  | 0, _ => []
  | _ + 1, [] => []
  | fuel + 1, c :: cs =>
    match matchImageAt (c :: cs) with
    | some (g, rem) => g :: findallImagesFuel fuel rem
    | none => findallImagesFuel fuel cs

/-- `re.findall(r"\['(https?://[^']+)','',\"([^\"]+)\"", data)`. -/
def findallImages (s : List Char) : List (List Char × List Char) :=
  findallImagesFuel (s.length + 1) s

/-- Python whitespace characters matched by `\s` (ASCII range). -/
def pyIsSpace (c : Char) : Bool :=
  c == ' ' || c == '\t' || c == '\n' || c == '\x0d' || c == '\x0b' || c == '\x0c'

/-- Everything strictly before the first occurrence of `]]` in the input,
or `none` when `]]` does not occur: the lazy `.*?` followed by `\]\]`. -/
def scanToBrackets : List Char → Option (List Char)
  | ']' :: ']' :: _ => some []
  | c :: cs => (scanToBrackets cs).map (fun t => c :: t)
  | [] => none

/-- One attempt of the marker pattern
`rm_h\.readerInit\([^,]+,\s*(\[\[.*?\]\])` (with `re.S`) at the current
position (source lines 142-143), returning capture group 1. -/
def matchMarkerAt (s : List Char) : Option (List Char) :=
  match stripLit "rm_h.readerInit(".toList s with
  | none => none
  | some s1 =>
    let arg := scanTo ',' s1
    if arg.1.isEmpty then none
    else
      match arg.2 with
      | ',' :: s2 =>
        let s3 := s2.dropWhile pyIsSpace
        match stripLit "[[".toList s3 with
        | none => none
        | some s4 =>
          match scanToBrackets s4 with
          | none => none
          | some inner => some ("[[".toList ++ inner ++ "]]".toList)
      | _ => none

/-- `re.search` of the marker pattern: try every start position from the
left and return the first successful match's capture group 1. -/
def searchMarker : List Char → Option (List Char)
  | [] => none
  | c :: cs =>
    match matchMarkerAt (c :: cs) with
    | some g => some g
    | none => searchMarker cs

/-! ### Format classifier (`_detect_extension`, source lines 30-40)

`os.path.splitext(urlparse(img_url).path)[1].lower()` is modelled by
`pySplitextExt` composed with `pyUrlparsePath`; the latter follows
CPython's `urllib.parse.urlparse` (scheme, netloc, fragment, query and
parameter splitting on a POSIX build), the former CPython's
`posixpath.splitext`.  `urlparse` is *not* total: `urlsplit` raises
`ValueError` for a netloc with unbalanced brackets ("Invalid IPv6 URL")
and, in `_checknetloc`, for a non-ASCII netloc whose NFKC normalization
introduces one of `/?#@:` (verified on CPython 3.11.6, present since
3.6.x); `_detect_extension` calls it unguarded, so both model functions
return `Except`. -/

/-- Characters allowed in a URL scheme (`urllib.parse.scheme_chars`). -/
def schemeCharOk (c : Char) : Bool :=
  c.isAlphanum || c == '+' || c == '-' || c == '.'

/-- Split off a leading `scheme:` when the part before the first colon is
non-empty, starts with a letter and consists of scheme characters;
returns the lower-cased scheme and the rest (the whole input when there
is no scheme). -/
def splitSchemeL (l : List Char) : List Char × List Char :=
  let p := scanTo ':' l
  match p.2 with
  | [] => ([], l)
  | _ :: tail =>
    match p.1 with
    | [] => ([], l)
    | c :: cs =>
      if c.isAlpha && (c :: cs).all schemeCharOk then ((c :: cs).map Char.toLower, tail)
      else ([], l)

/-- Split off a leading `//netloc` component: the netloc extends to the
first `/`, `?` or `#`; the first component is the netloc (empty when the
input does not start with `//`), the second the rest. -/
def urlsplitNetloc (l : List Char) : List Char × List Char :=
  match l with
  | '/' :: '/' :: rest =>
    (rest.takeWhile (fun c => !(c == '/' || c == '?' || c == '#')),
     rest.dropWhile (fun c => !(c == '/' || c == '?' || c == '#')))
  | _ => ([], l)

/-- The fragment of Unicode NFKC normalization consulted by this
development: NFKC is the identity on every ASCII character (a fact of
Unicode), the compatibility characters enumerated here map to the listed
forms (each verified against `unicodedata.normalize("NFKC", -)`), and
every other code point is left unchanged.  The last clause
under-approximates the full Unicode table; the theorems below consult
this function only on ASCII netlocs (where it is exact) or at the
enumerated characters. -/
def nfkcCharQuasi (c : Char) : List Char :=
  if c = Char.ofNat 0x2100 then "a/c".data
  else if c = Char.ofNat 0x2101 then "a/s".data
  else if c = Char.ofNat 0x2105 then "c/o".data
  else if c = Char.ofNat 0x2106 then "c/u".data
  else if c = Char.ofNat 0xFF0F then "/".data
  else if c = Char.ofNat 0xFF1A then ":".data
  else if c = Char.ofNat 0xFF20 then "@".data
  else if c = Char.ofNat 0xFF1F then "?".data
  else if c = Char.ofNat 0xFF03 then "#".data
  else [c]

/-- NFKC normalization of a character list (via `nfkcCharQuasi`). -/
def nfkcQuasi (l : List Char) : List Char := (l.map nfkcCharQuasi).flatten

/-- `urllib.parse._checknetloc`: an empty or all-ASCII netloc passes;
otherwise the characters `@:#?` are removed, the remainder is NFKC
normalized, and if the normalization changed it and now contains one of
`/?#@:`, a `ValueError` is raised. -/
def _checknetloc (netloc : List Char) : Except String Unit :=
  if netloc = [] ∨ (∀ c ∈ netloc, c.toNat ≤ 127) then Except.ok ()
  else
    let n := netloc.filter (fun c => !(c == '@' || c == ':' || c == '#' || c == '?'))
    let netloc2 := nfkcQuasi n
    if n = netloc2 then Except.ok ()
    else if ['/', '?', '#', '@', ':'].any (fun c => netloc2.contains c) then
      Except.error ("netloc \x27" ++ String.mk netloc ++
        "\x27 contains invalid characters under NFKC normalization")
    else Except.ok ()

/-- Everything strictly before the first occurrence of `stop`. -/
def cutAt (stop : Char) (l : List Char) : List Char := (scanTo stop l).1

/-- `urllib.parse._splitparams` applied to a path: cut at the first `;`
after the last `/` (or the first `;` overall when the path has no `/`). -/
def splitParamsPath (p : List Char) : List Char :=
  if p.contains '/' then
    let q := p.reverse.span (fun c => !(c == '/'))
    q.2.reverse ++ cutAt ';' q.1.reverse
  else cutAt ';' p

/-- `urllib.parse.uses_params`: schemes whose parse result separates the
`;parameters` suffix from the path. -/
def uses_params : List String :=
  ["", "ftp", "hdl", "prospero", "http", "imap", "https", "shttp", "rtsp",
   "rtspu", "sip", "sips", "mms", "sftp", "tel"]

/-- The `path` component of `urllib.parse.urlparse(url)`, or the
`ValueError` the parse raises.  Follows CPython 3.10 `urlsplit` (the
minimum version the source's annotations require): strip the unsafe
bytes tab/CR/LF, split the scheme, split a `//netloc` — rejecting a
netloc with unbalanced brackets as an invalid IPv6 URL; CPython 3.11
additionally validates the contents of a bracketed host, an error path
not modelled here and excluded by hypothesis in every theorem below —
cut fragment and query, run `_checknetloc`, and split `;parameters` for
`uses_params` schemes. -/
def pyUrlparsePath (url : String) : Except String String :=
  let cleaned := url.data.filter (fun c => !(c == '\t' || c == '\x0d' || c == '\n'))
  let sp := splitSchemeL cleaned
  let nl := urlsplitNetloc sp.2
  if ('[' ∈ nl.1 ∧ ']' ∉ nl.1) ∨ (']' ∈ nl.1 ∧ '[' ∉ nl.1) then
    Except.error "Invalid IPv6 URL"
  else
    match _checknetloc nl.1 with
    | Except.error e => Except.error e
    | Except.ok _ =>
      let pathChars := cutAt '?' (cutAt '#' nl.2)
      if (String.mk sp.1) ∈ uses_params then Except.ok (String.mk (splitParamsPath pathChars))
      else Except.ok (String.mk pathChars)

/-- The extension part of `posixpath.splitext`, given the basename: the
suffix from the last dot, unless every character before that dot is
itself a dot. -/
def extOfBasename (b : List Char) : List Char :=
  let sp := b.reverse.span (fun c => !(c == '.'))
  match sp.2 with
  | [] => []
  | _ :: rbefore =>
    if rbefore.any (fun c => !(c == '.')) then '.' :: sp.1.reverse else []

/-- `os.path.splitext(p)[1]` on a POSIX build. -/
def pySplitextExt (p : String) : String :=
  String.mk (extOfBasename ((p.data.reverse.span (fun c => !(c == '/'))).1.reverse))

/-- Python `str.lower()` (the inputs classified here are ASCII). -/
def strLower (s : String) : String := String.mk (s.data.map Char.toLower)

/-- Python `str.strip()` with no argument: remove leading and trailing
whitespace. -/
def pyStrip (s : String) : String :=
  String.mk (((s.data.dropWhile pyIsSpace).reverse.dropWhile pyIsSpace).reverse)

/-- `ALLOWED_EXTENSIONS` (source line 12); Python set membership is
modelled by list membership. -/
def ALLOWED_EXTENSIONS : List String := [".jpg", ".jpeg", ".png", ".webp", ".wepb"]

/-- `CONTENT_TYPE_TO_EXTENSION` (source lines 13-18). -/
def CONTENT_TYPE_TO_EXTENSION : List (String × String) :=
  [("image/jpeg", ".jpg"), ("image/jpg", ".jpg"),
   ("image/png", ".png"), ("image/webp", ".webp")]

/-- `CONTENT_TYPE_TO_EXTENSION.get(mime, ".jpg")`. -/
def lookupContentType (mime : String) : String :=
  match CONTENT_TYPE_TO_EXTENSION.find? (fun p => p.1 == mime) with
  | some p => p.2
  | none => ".jpg"

/-- `_detect_extension` (source lines 30-40).  The unguarded `urlparse`
call can raise, so the result is an `Except` and the `ValueError`
propagates to the caller. -/
def _detect_extension (img_url content_type : String) : Except String String :=
  match pyUrlparsePath img_url with
  | Except.error e => Except.error e
  | Except.ok p =>
    let ext := strLower (pySplitextExt p)
    if ext ∈ ALLOWED_EXTENSIONS then
      Except.ok (if ext == ".jpeg" then ".jpg" else if ext == ".wepb" then ".webp" else ext)
    else
      let mime := strLower (pyStrip (String.mk (cutAt ';' content_type.data)))
      Except.ok (lookupContentType mime)

/-! ### Small string helpers used by the pipeline -/

/-- Boolean list-prefix test. -/
def listIsPre : List Char → List Char → Bool
  | [], _ => true
  | _ :: _, [] => false
  | a :: as, b :: bs => a == b && listIsPre as bs

/-- Python `str.startswith`. -/
def strStartsWith (s pre : String) : Bool := listIsPre pre.data s.data

/-- Python `str.endswith`. -/
def strEndsWith (s suf : String) : Bool := listIsPre suf.data.reverse s.data.reverse

/-- `_build_image_url` (source lines 24-27). -/
def _build_image_url (base path : String) : String :=
  if strStartsWith path "http://" || strStartsWith path "https://" then path
  else base ++ path

/-- The zero-padded index `f"{index:03}"`. -/
def pad3 (n : Nat) : String :=
  let s := toString n
  String.mk (List.replicate (3 - s.length) '0' ++ s.data)

/-- `os.path.join` for a relative second component on POSIX. -/
def pathJoin (a b : String) : String := a ++ "/" ++ b

/-- Python `enumerate(l, i)`. -/
def enumerateFrom : Nat → List α → List (Nat × α)
  | _, [] => []
  | i, a :: l => (i, a) :: enumerateFrom (i + 1) l

/-! ### Result collation: Python `dict` and `sorted` (source lines 152-227) -/

/-- Python `d[k] = v` on an insertion-ordered dict modelled as an
association list: replace in place when the key exists, append otherwise. -/
def dictSet (d : List (Nat × String)) (k : Nat) (v : String) : List (Nat × String) :=
  if k ∈ d.map Prod.fst then d.map (fun p => if p.1 = k then (k, v) else p)
  else d ++ [(k, v)]

/-- Python `d[k]` as an option. -/
def dictLookup (d : List (Nat × String)) (k : Nat) : Option String :=
  (d.find? (fun p => p.1 == k)).map Prod.snd

/-- `sorted(d)`: the keys of the dict in ascending order. -/
def sortedKeysOf (d : List (Nat × String)) : List Nat :=
  List.insertionSort (· ≤ ·) (d.map Prod.fst)

/-- `[(idx, d[idx]) for idx in sorted(d)]` (source lines 225-226). -/
def sortedItems (d : List (Nat × String)) : List (Nat × String) :=
  (sortedKeysOf d).filterMap (fun k => (dictLookup d k).map (fun v => (k, v)))

/-! ### Document assembler (source lines 63-119)

Pillow decoding and color-mode normalisation (`Image.open` followed by
`_prepare_for_pdf`) are abstracted into a caller-supplied
`decode : String → Option String` from raw bytes (or a file path) to the
normalised page, `none` meaning `UnidentifiedImageError`.  A returned
`Except.ok pages` means the document file was written with exactly that
page sequence; `Except.error` means the `ValueError` was raised before
`first_page.save`, so no output file was written. -/

/-- Message of the `ValueError` raised by `_save_pdf_pages` on zero pages
(source line 65). -/
def noPagesMsg : String := "Нет изображений для сборки PDF."

/-- Message of the `ValueError` raised when a page's bytes cannot be
decoded (source lines 112-114). -/
def unreadablePageMsg (page_index : Nat) : String :=
  "Не удалось прочитать изображение страницы #" ++ pad3 page_index

/-- Message of the `ValueError` raised when an image file cannot be read
(source line 90). -/
def unreadableImageMsg (image_path : String) : String :=
  "Не удалось прочитать изображение: " ++ image_path

/-- `_save_pdf_pages` (source lines 63-73): fails before writing anything
when there are no pages, otherwise writes all pages in order. -/
def _save_pdf_pages (pages : List String) : Except String (List String) :=
  if pages.isEmpty then Except.error noPagesMsg else Except.ok pages

/-- The decode loop of `create_pdf_from_images` (source lines 81-90). -/
def collectPagesFromFiles (decode : String → Option String) :
    List String → Except String (List String)
  | [] => Except.ok []
  | image_path :: rest =>
    match decode image_path with
    | none => Except.error (unreadableImageMsg image_path)
    | some img =>
      match collectPagesFromFiles decode rest with
      | Except.error e => Except.error e
      | Except.ok pages => Except.ok (img :: pages)

/-- `create_pdf_from_images` (source lines 76-95). -/
def create_pdf_from_images (decode : String → Option String)
    (image_paths : List String) : Except String (List String) :=
  match collectPagesFromFiles decode image_paths with
  | Except.error e => Except.error e
  | Except.ok pages => _save_pdf_pages pages

/-- The decode loop of `create_pdf_from_page_bytes` (source lines 104-114). -/
def collectPagesFromBytes (decode : String → Option String) :
    List (Nat × String) → Except String (List String)
  | [] => Except.ok []
  | (page_index, image_bytes) :: rest =>
    match decode image_bytes with
    | none => Except.error (unreadablePageMsg page_index)
    | some img =>
      match collectPagesFromBytes decode rest with
      | Except.error e => Except.error e
      | Except.ok pages => Except.ok (img :: pages)

/-- `create_pdf_from_page_bytes` (source lines 98-119). -/
def create_pdf_from_page_bytes (decode : String → Option String)
    (pages_by_index : List (Nat × String)) : Except String (List String) :=
  match collectPagesFromBytes decode pages_by_index with
  | Except.error e => Except.error e
  | Except.ok pages => _save_pdf_pages pages

/-! ### Pipeline orchestrator (`download_manga`, source lines 122-256) -/

/-- Observable side effects of the pipeline, in program order. -/
inductive Effect where
  | makeDirs (dir : String)
  | netGet (url : String)
  | writeImageFile (path : String)
  | savePdf (path : String)
deriving DecidableEq, Repr

/-- Whether an effect is the final document save. -/
def Effect.isSavePdf : Effect → Bool
  | .savePdf _ => true
  | _ => false

/-- A Python exception escaping `download_manga`. -/
inductive PyErr where
  | valueError (msg : String)
deriving DecidableEq, Repr

/-- Message of the configuration `ValueError` (source line 134). -/
def pdfOnlyNeedsPdfMsg : String :=
  "Режим \x27Только PDF\x27 требует включенной сборки PDF."

/-- Message of the `ValueError` raised when the marker is absent
(source line 145). -/
def markerNotFoundMsg : String :=
  "Массив страниц не найден. Вероятно, формат сайта изменился."

/-- Message of the `ValueError` raised when the page array yields no
entries (source line 150). -/
def noImagesMsg : String := "Не удалось извлечь ссылки на изображения."

/-- Message recorded when a document is requested but zero pages were
downloaded (source line 246). -/
def noDownloadedMsg : String := "Нет загруженных изображений для сборки PDF."

/-- The final report dict (source lines 248-256). -/
structure Report where
  total : Nat
  saved : Nat
  failed : List String
  pdf_path : Option String
  pdf_error : Option String
  pdf_requested : Bool
  pdf_only : Bool
deriving DecidableEq, Repr

/-- `DEFAULT_PDF_NAME` (source line 19). -/
def DEFAULT_PDF_NAME : String := "chapter.pdf"

/-- `DEFAULT_DOWNLOAD_WORKERS` (source line 20). -/
def DEFAULT_DOWNLOAD_WORKERS : Int := 8

/-- `MAX_DOWNLOAD_WORKERS` (source line 21). -/
def MAX_DOWNLOAD_WORKERS : Int := 16

/-- The arguments of `download_manga` (source lines 122-129).
`max_workers` is `some n` when `int(max_workers)` yields `n`, and `none`
when the conversion raises `TypeError`/`ValueError`. -/
structure Config where
  url : String
  output_dir : String
  create_pdf : Bool
  pdf_filename : String
  pdf_only : Bool
  max_workers : Option Int

/-- The environment of one run: the chapter page body returned by the
initial GET, the per-index outcome of each image GET (`Except.ok` carries
the body bytes and the `Content-Type` header, `Except.error` the exception
text), the Pillow decoders, and the order in which `as_completed` yields
the submitted futures. -/
structure World where
  html : String
  fetch : Nat → Except String (String × String)
  decodeBytes : String → Option String
  decodeFile : String → Option String
  order : List Nat

/-- The `try: int(max_workers) except (TypeError, ValueError):
DEFAULT_DOWNLOAD_WORKERS` step (source lines 156-159). -/
def coerceWorkers : Option Int → Int
  | some n => n
  | none => DEFAULT_DOWNLOAD_WORKERS

/-- `max(1, min(workers_input, min(MAX_DOWNLOAD_WORKERS, total)))`
(source line 160). -/
def effectiveWorkers (workers_input : Int) (total : Nat) : Int :=
  max 1 (min workers_input (min MAX_DOWNLOAD_WORKERS (Int.ofNat total)))

/-- Marker search, array scan and emptiness checks of `download_manga`
(source lines 142-150). -/
def extractImages (html : String) : Except PyErr (List (String × String)) :=
  match searchMarker html.data with
  | none => Except.error (PyErr.valueError markerNotFoundMsg)
  | some data =>
    let images := (findallImages data).map (fun p => (String.mk p.1, String.mk p.2))
    if images.isEmpty then Except.error (PyErr.valueError noImagesMsg)
    else Except.ok images

/-- `_download_one` (source lines 176-196): the tuple
`(index, filename, image_content, error)` plus the effects the worker
performed.  The whole body runs inside `try/except Exception`
(lines 195-196), so a `ValueError` escaping `_detect_extension` is
caught like a network error and becomes a per-unit failure, after the
GET but before any file write. -/
def _download_one (pdf_only : Bool) (output_dir : String)
    (fetch : Nat → Except String (String × String)) (index : Nat)
    (base path : String) :
    List Effect × Nat × Option String × Option String × Option String :=
  let img_url := _build_image_url base path
  match fetch index with
  | Except.error exc =>
    ([Effect.netGet img_url], index, none, none, some (img_url ++ " (" ++ exc ++ ")"))
  | Except.ok (image_content, content_type) =>
    if pdf_only then ([Effect.netGet img_url], index, none, some image_content, none)
    else
      match _detect_extension img_url content_type with
      | Except.error exc =>
        ([Effect.netGet img_url], index, none, none, some (img_url ++ " (" ++ exc ++ ")"))
      | Except.ok extension =>
        let filename := pathJoin output_dir (pad3 index ++ extension)
        ([Effect.netGet img_url, Effect.writeImageFile filename],
         index, some filename, none, none)

/-- The collation state mutated by the `as_completed` loop
(source lines 152-154). -/
structure FetchState where
  failed : List String
  saved_by_index : List (Nat × String)
  page_bytes_by_index : List (Nat × String)
deriving DecidableEq, Repr

/-- The empty collation state. -/
def initFetchState : FetchState := ⟨[], [], []⟩

/-- One iteration of the `as_completed` loop (source lines 205-223):
run the completed worker for index `idx` and fold its result into the
state. -/
def fetchStep (pdf_only : Bool) (output_dir : String)
    (fetch : Nat → Except String (String × String))
    (descs : List (Nat × String × String))
    (acc : List Effect × FetchState) (idx : Nat) : List Effect × FetchState :=
  let d := ((descs.find? (fun p => p.1 == idx)).getD (idx, "", ""))
  match _download_one pdf_only output_dir fetch idx d.2.1 d.2.2 with
  | (effs, index, filename, image_content, error) =>
    match error with
    | some e => (acc.1 ++ effs, { acc.2 with failed := acc.2.failed ++ [e] })
    | none =>
      if pdf_only then
        let pb := dictSet acc.2.page_bytes_by_index index (image_content.getD "")
        (acc.1 ++ effs, { acc.2 with page_bytes_by_index := pb })
      else
        let sv := dictSet acc.2.saved_by_index index (filename.getD "")
        (acc.1 ++ effs, { acc.2 with saved_by_index := sv })

/-- The whole fetch phase (source lines 198-223): the pool is submitted
`enumerate(images, 1)` and the loop observes completions in `order`.
`effective_workers` bounds the parallelism of the real pool; it does not
influence the collated result, which depends only on the completion
order. -/
def fetchLoop (effective_workers : Int) (pdf_only : Bool) (output_dir : String)
    (fetch : Nat → Except String (String × String))
    (descs : List (Nat × String × String)) (order : List Nat) :
    List Effect × FetchState :=
  let _ := effective_workers
  order.foldl (fetchStep pdf_only output_dir fetch descs) ([], initFetchState)

/-- The PDF block of `download_manga` (source lines 229-246): returns the
effects performed, `pdf_path` and `pdf_error`. -/
def pdfPhase (cfg : Config) (w : World) (saved : Nat)
    (saved_files : List String) (page_bytes : List (Nat × String)) :
    List Effect × Option String × Option String :=
  if cfg.create_pdf then
    let pdf_filename :=
      if strEndsWith (strLower cfg.pdf_filename) ".pdf" then cfg.pdf_filename
      else cfg.pdf_filename ++ ".pdf"
    let pdf_path := pathJoin cfg.output_dir pdf_filename
    if 0 < saved then
      match (if cfg.pdf_only then create_pdf_from_page_bytes w.decodeBytes page_bytes
             else create_pdf_from_images w.decodeFile saved_files) with
      | Except.ok _ => ([Effect.savePdf pdf_path], some pdf_path, none)
      | Except.error exc => ([], some pdf_path, some exc)
    else ([], some pdf_path, some noDownloadedMsg)
  else ([], none, none)

/-- Everything `download_manga` does after a successful extraction
(source lines 152-256); this part never raises. -/
def runFetchPhase (cfg : Config) (w : World) (images : List (String × String)) :
    List Effect × Report :=
  let total := images.length
  let workers_input := coerceWorkers cfg.max_workers
  let effective_workers := effectiveWorkers workers_input total
  let descs := enumerateFrom 1 images
  let fl := fetchLoop effective_workers cfg.pdf_only cfg.output_dir w.fetch descs w.order
  let st := fl.2
  let saved_files := (sortedItems st.saved_by_index).map Prod.snd
  let page_bytes := sortedItems st.page_bytes_by_index
  let saved := if cfg.pdf_only then page_bytes.length else saved_files.length
  let pp := pdfPhase cfg w saved saved_files page_bytes
  (fl.1 ++ pp.1,
   { total := total, saved := saved, failed := st.failed,
     pdf_path := pp.2.1, pdf_error := pp.2.2,
     pdf_requested := cfg.create_pdf, pdf_only := cfg.pdf_only })

/-- `download_manga` (source lines 122-256), as the trace of effects it
performs and either the raised `ValueError` or the returned report.
Note that `os.makedirs(output_dir, exist_ok=True)` (line 132) runs before
the `pdf_only and not create_pdf` check (lines 133-134), and that the
chapter GET (line 138) is assumed to succeed with body `w.html`. -/
def download_manga (cfg : Config) (w : World) : List Effect × Except PyErr Report :=
  let effs0 := [Effect.makeDirs cfg.output_dir]
  if cfg.pdf_only && !cfg.create_pdf then
    (effs0, Except.error (PyErr.valueError pdfOnlyNeedsPdfMsg))
  else
    let effs1 := effs0 ++ [Effect.netGet cfg.url]
    match extractImages w.html with
    | Except.error e => (effs1, Except.error e)
    | Except.ok images =>
      let rest := runFetchPhase cfg w images
      (effs1 ++ rest.1, Except.ok rest.2)

/-! ### Remaining definitions: the spec's clamp, and concrete runs used by
counterexamples and witnesses -/

/-- Modelled from the spec: `clamp(x, lo, hi)` as used in the sentence
"Effective concurrency = clamp(config.concurrency, 1,
min(MAX_WORKERS, len(descriptors)))". -/
def clampSpec (x lo hi : Int) : Int :=
  if x < lo then lo else if hi < x then hi else x

/-- A chapter page whose embedded array holds one entry. -/
def onePageHtml : String :=
  "rm_h.readerInit(0, [[\x27http://a\x27,\x27\x27,\"p1.jpg\"]])"

/-- C1 counterexample run: a document is requested but the only fetch
fails. -/
def c1BadConfig : Config :=
  { url := "u", output_dir := "out", create_pdf := true,
    pdf_filename := "chapter.pdf", pdf_only := false, max_workers := some 8 }

/-- World of the C1 counterexample: the single image GET times out. -/
def c1BadWorld : World :=
  { html := onePageHtml, fetch := fun _ => Except.error "timeout",
    decodeBytes := fun b => some b, decodeFile := fun p => some p, order := [1] }

/-- The report returned by the C1 counterexample run. -/
def c1BadReport : Report :=
  { total := 1, saved := 0, failed := ["http://ap1.jpg (timeout)"],
    pdf_path := some "out/chapter.pdf", pdf_error := some noDownloadedMsg,
    pdf_requested := true, pdf_only := false }

/-- C1 witness run: a document-only run whose single fetch succeeds. -/
def c1OkConfig : Config :=
  { url := "u", output_dir := "out", create_pdf := true, pdf_filename := "ch",
    pdf_only := true, max_workers := some 4 }

/-- World of the C1 witness run. -/
def c1OkWorld : World :=
  { html := onePageHtml, fetch := fun _ => Except.ok ("BYTES", "image/png"),
    decodeBytes := fun b => some b, decodeFile := fun p => some p, order := [1] }

/-- Effect trace of the C1 witness run. -/
def c1OkEffects : List Effect :=
  [Effect.makeDirs "out", Effect.netGet "u", Effect.netGet "http://ap1.jpg",
   Effect.savePdf "out/ch.pdf"]

/-- Report of the C1 witness run. -/
def c1OkReport : Report :=
  { total := 1, saved := 1, failed := [], pdf_path := some "out/ch.pdf",
    pdf_error := none, pdf_requested := true, pdf_only := true }

/-- C2 run: `pdf_only=True` together with `create_pdf=False`. -/
def c2Config : Config :=
  { url := "u", output_dir := "manga", create_pdf := false,
    pdf_filename := "chapter.pdf", pdf_only := true, max_workers := some 8 }

/-- World of the C2 run (never reached past the option check). -/
def c2World : World :=
  { html := onePageHtml, fetch := fun _ => Except.error "timeout",
    decodeBytes := fun b => some b, decodeFile := fun p => some p, order := [1] }

/-- The extraction input of the C3 scenario exactly as the spec writes it:
the page paths are single-quoted. -/
def c3SpecInput : String :=
  "rm_h.readerInit(0, [[\x27http://cdn/a\x27,\x27\x27,\x27p1.jpg\x27],[\x27http://cdn/b\x27,\x27\x27,\x27p2.jpg\x27]])"

/-- The C3 scenario input with the page paths double-quoted, which is the
shape the extraction pattern of source line 148 actually requires. -/
def c3CodeInput : String :=
  "rm_h.readerInit(0, [[\x27http://cdn/a\x27,\x27\x27,\"p1.jpg\"],[\x27http://cdn/b\x27,\x27\x27,\"p2.jpg\"]])"

/-- Descriptor list extracted from `c3CodeInput`. -/
def c3Images : List (String × String) :=
  [("http://cdn/a", "p1.jpg"), ("http://cdn/b", "p2.jpg")]

/-- Three-descriptor list used by the C4 witness. -/
def c4Images : List (String × String) :=
  [("http://a", "1.jpg"), ("http://b", "2.jpg"), ("http://c", "3.jpg")]

/-- Fetch outcomes of the C4 witness: page 2 fails, the others succeed. -/
def c4Fetch : Nat → Except String (String × String) :=
  fun i => if i == 2 then Except.error "boom" else Except.ok ("B", "image/png")

/-- A URL whose netloc is the single character U+2100 (ACCOUNT OF), whose
NFKC normalization is `a/c`: CPython's `urlparse` raises `ValueError` on
it (verified on Python 3.11.6). -/
def c7BadUrl : String := "http://\u2100/x.jpg"

/-! ### Helper lemmas: dict updates, sorted collation -/

/-- A key of the dict always has a value. -/
theorem dictLookup_isSome_of_mem {d : List (Nat × String)} {k : Nat}
    (h : k ∈ d.map Prod.fst) : (dictLookup d k).isSome := by
  induction d with
  | nil => simp at h
  | cons p d ih =>
    rw [List.map_cons, List.mem_cons] at h
    by_cases hk : p.1 == k
    · simp [dictLookup, List.find?, hk]
    · rcases h with h | h
      · exact absurd (beq_iff_eq.mpr h.symm) (by simpa using hk)
      · simpa [dictLookup, List.find?, hk] using ih h

/-- `filterMap` over keys that are all present keeps the length. -/
theorem filterMapLookup_length (d : List (Nat × String)) :
    ∀ l : List Nat, (∀ k ∈ l, k ∈ d.map Prod.fst) →
      (l.filterMap (fun k => (dictLookup d k).map (fun v => (k, v)))).length = l.length := by
  intro l
  induction l with
  | nil => intro _; rfl
  | cons k l ih =>
    intro h
    have hs := dictLookup_isSome_of_mem (h k (List.mem_cons_self k l))
    obtain ⟨v, hv⟩ := Option.isSome_iff_exists.mp hs
    simp only [List.filterMap_cons, hv, Option.map_some', List.length_cons]
    rw [ih (fun x hx => h x (List.mem_cons_of_mem k hx))]

/-- `filterMap` over keys that are all present returns exactly those keys
as first components. -/
theorem filterMapLookup_map_fst (d : List (Nat × String)) :
    ∀ l : List Nat, (∀ k ∈ l, k ∈ d.map Prod.fst) →
      (l.filterMap (fun k => (dictLookup d k).map (fun v => (k, v)))).map Prod.fst = l := by
  intro l
  induction l with
  | nil => intro _; rfl
  | cons k l ih =>
    intro h
    have hs := dictLookup_isSome_of_mem (h k (List.mem_cons_self k l))
    obtain ⟨v, hv⟩ := Option.isSome_iff_exists.mp hs
    simp only [List.filterMap_cons, hv, Option.map_some', List.map_cons]
    rw [ih (fun x hx => h x (List.mem_cons_of_mem k hx))]

/-- The sorted item list of a dict has one entry per dict entry. -/
theorem sortedItems_length (d : List (Nat × String)) :
    (sortedItems d).length = d.length := by
  unfold sortedItems
  rw [filterMapLookup_length]
  · rw [sortedKeysOf, List.length_insertionSort, List.length_map]
  · intro k hk
    rw [sortedKeysOf] at hk
    exact (List.mem_insertionSort (· ≤ ·)).mp hk

/-- The first components of the sorted item list are the sorted keys. -/
theorem sortedItems_map_fst (d : List (Nat × String)) :
    (sortedItems d).map Prod.fst = sortedKeysOf d := by
  unfold sortedItems
  rw [filterMapLookup_map_fst]
  intro k hk
  rw [sortedKeysOf] at hk
  exact (List.mem_insertionSort (· ≤ ·)).mp hk

/-- A sorted list without duplicates is strictly ascending. -/
theorem chain_lt_of_sorted_nodup {l : List Nat}
    (hs : List.Sorted (· ≤ ·) l) (hn : l.Nodup) : List.Chain' (· < ·) l := by
  have hp : List.Pairwise (· < ·) l :=
    (List.Pairwise.and hs hn).imp (fun h => lt_of_le_of_ne h.1 h.2)
  exact hp.chain'

/-- Setting an absent key appends it. -/
theorem dictSet_keys_of_not_mem {d : List (Nat × String)} {k : Nat} {v : String}
    (h : k ∉ d.map Prod.fst) :
    (dictSet d k v).map Prod.fst = d.map Prod.fst ++ [k] := by
  simp [dictSet, h]

/-- Setting an absent key grows the dict by one entry. -/
theorem dictSet_length_of_not_mem {d : List (Nat × String)} {k : Nat} {v : String}
    (h : k ∉ d.map Prod.fst) : (dictSet d k v).length = d.length + 1 := by
  simp [dictSet, h]

/-- Setting a present key keeps the key list. -/
theorem dictSet_keys_of_mem {d : List (Nat × String)} {k : Nat} {v : String}
    (h : k ∈ d.map Prod.fst) :
    (dictSet d k v).map Prod.fst = d.map Prod.fst := by
  simp only [dictSet, if_pos h, List.map_map]
  apply List.map_congr_left
  intro a _
  by_cases ha : a.1 = k
  · simp [Function.comp, ha]
  · simp [Function.comp, ha]

/-- `dictSet` preserves distinctness of the keys. -/
theorem dictSet_keys_nodup {d : List (Nat × String)} {k : Nat} {v : String}
    (h : (d.map Prod.fst).Nodup) : ((dictSet d k v).map Prod.fst).Nodup := by
  by_cases hm : k ∈ d.map Prod.fst
  · rw [dictSet_keys_of_mem hm]; exact h
  · rw [dictSet_keys_of_not_mem hm]
    simp [List.nodup_append, h, hm]

/-- Membership in the keys after `dictSet`, for a different key. -/
theorem dictSet_mem_keys {d : List (Nat × String)} {k j : Nat} {v : String}
    (hj : j ≠ k) (h : j ∈ (dictSet d k v).map Prod.fst) : j ∈ d.map Prod.fst := by
  by_cases hm : k ∈ d.map Prod.fst
  · rwa [dictSet_keys_of_mem hm] at h
  · rw [dictSet_keys_of_not_mem hm] at h
    rcases List.mem_append.mp h with h | h
    · exact h
    · exact absurd (List.mem_singleton.mp h) hj

/-! ### Helper lemmas: the `as_completed` loop -/

/-- Each loop iteration either appends one failure or sets one key of the
dict selected by the mode, leaving the other two components unchanged. -/
theorem fetchStep_cases (po : Bool) (od : String)
    (fetch : Nat → Except String (String × String))
    (descs : List (Nat × String × String))
    (acc : List Effect × FetchState) (idx : Nat) :
    (∃ e, (fetchStep po od fetch descs acc idx).2 =
        { acc.2 with failed := acc.2.failed ++ [e] }) ∨
    (po = true ∧ ∃ v, (fetchStep po od fetch descs acc idx).2 =
        { acc.2 with page_bytes_by_index := dictSet acc.2.page_bytes_by_index idx v }) ∨
    (po = false ∧ ∃ v, (fetchStep po od fetch descs acc idx).2 =
        { acc.2 with saved_by_index := dictSet acc.2.saved_by_index idx v }) := by
  rcases hf : fetch idx with e | ⟨content, ctype⟩
  · left
    refine ⟨_build_image_url ((descs.find? (fun p => p.1 == idx)).getD (idx, "", "")).2.1
        ((descs.find? (fun p => p.1 == idx)).getD (idx, "", "")).2.2 ++ " (" ++ e ++ ")", ?_⟩
    simp [fetchStep, _download_one, hf]
  · cases po with
    | true =>
      right; left
      refine ⟨rfl, content, ?_⟩
      simp [fetchStep, _download_one, hf]
    | false =>
      rcases hd : _detect_extension
          (_build_image_url ((descs.find? (fun p => p.1 == idx)).getD (idx, "", "")).2.1
            ((descs.find? (fun p => p.1 == idx)).getD (idx, "", "")).2.2) ctype with exc | extension
      · left
        refine ⟨_build_image_url ((descs.find? (fun p => p.1 == idx)).getD (idx, "", "")).2.1
            ((descs.find? (fun p => p.1 == idx)).getD (idx, "", "")).2.2 ++ " (" ++ exc ++ ")", ?_⟩
        simp [fetchStep, _download_one, hf, hd]
      · right; right
        refine ⟨rfl, pathJoin od (pad3 idx ++ extension), ?_⟩
        simp [fetchStep, _download_one, hf, hd]

/-- No loop iteration produces a document-save effect. -/
theorem fetchStep_any_savePdf (po : Bool) (od : String)
    (fetch : Nat → Except String (String × String))
    (descs : List (Nat × String × String))
    (acc : List Effect × FetchState) (idx : Nat) :
    ((fetchStep po od fetch descs acc idx).1.any Effect.isSavePdf) =
      acc.1.any Effect.isSavePdf := by
  rcases hf : fetch idx with e | ⟨content, ctype⟩
  · cases po <;> simp [fetchStep, _download_one, hf, Effect.isSavePdf]
  · cases po with
    | true => simp [fetchStep, _download_one, hf, Effect.isSavePdf]
    | false =>
      rcases hd : _detect_extension
          (_build_image_url ((descs.find? (fun p => p.1 == idx)).getD (idx, "", "")).2.1
            ((descs.find? (fun p => p.1 == idx)).getD (idx, "", "")).2.2) ctype with exc | extension <;>
        simp [fetchStep, _download_one, hf, hd, Effect.isSavePdf]

/-- The whole fetch phase produces no document-save effect. -/
theorem fetchFold_any_savePdf (po : Bool) (od : String)
    (fetch : Nat → Except String (String × String))
    (descs : List (Nat × String × String)) :
    ∀ (order : List Nat) (acc : List Effect × FetchState),
      ((order.foldl (fetchStep po od fetch descs) acc).1.any Effect.isSavePdf) =
        acc.1.any Effect.isSavePdf := by
  intro order
  induction order with
  | nil => intro acc; rfl
  | cons idx rest ih =>
    intro acc
    rw [List.foldl_cons, ih, fetchStep_any_savePdf]

/-- In document-only mode the loop never touches `saved_by_index`. -/
theorem fetchStep_saved_of_pdf_only (od : String)
    (fetch : Nat → Except String (String × String))
    (descs : List (Nat × String × String))
    (acc : List Effect × FetchState) (idx : Nat) :
    (fetchStep true od fetch descs acc idx).2.saved_by_index = acc.2.saved_by_index := by
  rcases hf : fetch idx with e | ⟨content, ctype⟩ <;>
    simp [fetchStep, _download_one, hf]

/-- Outside document-only mode the loop never touches
`page_bytes_by_index`. -/
theorem fetchStep_pages_of_not_pdf_only (od : String)
    (fetch : Nat → Except String (String × String))
    (descs : List (Nat × String × String))
    (acc : List Effect × FetchState) (idx : Nat) :
    (fetchStep false od fetch descs acc idx).2.page_bytes_by_index =
      acc.2.page_bytes_by_index := by
  rcases hf : fetch idx with e | ⟨content, ctype⟩
  · simp [fetchStep, _download_one, hf]
  · rcases hd : _detect_extension
        (_build_image_url ((descs.find? (fun p => p.1 == idx)).getD (idx, "", "")).2.1
          ((descs.find? (fun p => p.1 == idx)).getD (idx, "", "")).2.2) ctype with exc | extension <;>
      simp [fetchStep, _download_one, hf, hd]

/-- Fold version of `fetchStep_saved_of_pdf_only`. -/
theorem fetchFold_saved_of_pdf_only (od : String)
    (fetch : Nat → Except String (String × String))
    (descs : List (Nat × String × String)) :
    ∀ (order : List Nat) (acc : List Effect × FetchState),
      ((order.foldl (fetchStep true od fetch descs) acc).2.saved_by_index) =
        acc.2.saved_by_index := by
  intro order
  induction order with
  | nil => intro acc; rfl
  | cons idx rest ih =>
    intro acc
    rw [List.foldl_cons, ih, fetchStep_saved_of_pdf_only]

/-- Fold version of `fetchStep_pages_of_not_pdf_only`. -/
theorem fetchFold_pages_of_not_pdf_only (od : String)
    (fetch : Nat → Except String (String × String))
    (descs : List (Nat × String × String)) :
    ∀ (order : List Nat) (acc : List Effect × FetchState),
      ((order.foldl (fetchStep false od fetch descs) acc).2.page_bytes_by_index) =
        acc.2.page_bytes_by_index := by
  intro order
  induction order with
  | nil => intro acc; rfl
  | cons idx rest ih =>
    intro acc
    rw [List.foldl_cons, ih, fetchStep_pages_of_not_pdf_only]

/-- Counting invariant of the `as_completed` loop: every processed index
adds exactly one entry, either to `failed` or to the dict selected by the
mode, provided the processed indices are distinct and fresh. -/
theorem fetchFold_measure (po : Bool) (od : String)
    (fetch : Nat → Except String (String × String))
    (descs : List (Nat × String × String)) :
    ∀ (order : List Nat) (acc : List Effect × FetchState),
      order.Nodup →
      (∀ k ∈ order, k ∉ acc.2.saved_by_index.map Prod.fst ∧
          k ∉ acc.2.page_bytes_by_index.map Prod.fst) →
      (order.foldl (fetchStep po od fetch descs) acc).2.failed.length +
        (order.foldl (fetchStep po od fetch descs) acc).2.saved_by_index.length +
        (order.foldl (fetchStep po od fetch descs) acc).2.page_bytes_by_index.length =
      acc.2.failed.length + acc.2.saved_by_index.length +
        acc.2.page_bytes_by_index.length + order.length := by
  intro order
  induction order with
  | nil => intro acc _ _; simp
  | cons idx rest ih =>
    intro acc hnd hmem
    obtain ⟨hidx_s, hidx_p⟩ := hmem idx (List.mem_cons_self idx rest)
    have hidx_rest : idx ∉ rest := (List.nodup_cons.mp hnd).1
    have hnd' : rest.Nodup := (List.nodup_cons.mp hnd).2
    rw [List.foldl_cons]
    rcases fetchStep_cases po od fetch descs acc idx with
      ⟨e, hstep⟩ | ⟨hpo, v, hstep⟩ | ⟨hpo, v, hstep⟩
    · rw [ih (fetchStep po od fetch descs acc idx)
        hnd'
        (fun k hk => by rw [hstep]; exact hmem k (List.mem_cons_of_mem idx hk))]
      rw [hstep]
      simp only [List.length_append, List.length_cons, List.length_nil]
      omega
    · rw [ih (fetchStep po od fetch descs acc idx)
        hnd'
        (fun k hk => by
          rw [hstep]
          refine ⟨(hmem k (List.mem_cons_of_mem idx hk)).1, fun hc => ?_⟩
          have hkidx : k ≠ idx := fun he => hidx_rest (he ▸ hk)
          exact (hmem k (List.mem_cons_of_mem idx hk)).2 (dictSet_mem_keys hkidx hc))]
      rw [hstep]
      simp only [dictSet_length_of_not_mem hidx_p, List.length_cons]
      omega
    · rw [ih (fetchStep po od fetch descs acc idx)
        hnd'
        (fun k hk => by
          rw [hstep]
          refine ⟨fun hc => ?_, (hmem k (List.mem_cons_of_mem idx hk)).2⟩
          have hkidx : k ≠ idx := fun he => hidx_rest (he ▸ hk)
          exact (hmem k (List.mem_cons_of_mem idx hk)).1 (dictSet_mem_keys hkidx hc))]
      rw [hstep]
      simp only [dictSet_length_of_not_mem hidx_s, List.length_cons]
      omega

/-- The loop keeps the key lists of both dicts free of duplicates. -/
theorem fetchFold_keys_nodup (po : Bool) (od : String)
    (fetch : Nat → Except String (String × String))
    (descs : List (Nat × String × String)) :
    ∀ (order : List Nat) (acc : List Effect × FetchState),
      (acc.2.saved_by_index.map Prod.fst).Nodup →
      (acc.2.page_bytes_by_index.map Prod.fst).Nodup →
      ((order.foldl (fetchStep po od fetch descs) acc).2.saved_by_index.map Prod.fst).Nodup ∧
      ((order.foldl (fetchStep po od fetch descs) acc).2.page_bytes_by_index.map Prod.fst).Nodup := by
  intro order
  induction order with
  | nil => intro acc hs hp; exact ⟨hs, hp⟩
  | cons idx rest ih =>
    intro acc hs hp
    rw [List.foldl_cons]
    rcases fetchStep_cases po od fetch descs acc idx with
      ⟨e, hstep⟩ | ⟨hpo, v, hstep⟩ | ⟨hpo, v, hstep⟩
    · exact ih _ (by rw [hstep]; exact hs) (by rw [hstep]; exact hp)
    · exact ih _ (by rw [hstep]; exact hs) (by rw [hstep]; exact dictSet_keys_nodup hp)
    · exact ih _ (by rw [hstep]; exact dictSet_keys_nodup hs) (by rw [hstep]; exact hp)

/-! ### Helper lemmas: the PDF block and the assembler -/

/-- With a decoder that accepts every page, the assembler reproduces the
input pages in input order (or fails on the empty input). -/
theorem collectPagesFromBytes_id (l : List (Nat × String)) :
    collectPagesFromBytes (fun b => some b) l = Except.ok (l.map Prod.snd) := by
  induction l with
  | nil => rfl
  | cons p rest ih =>
    obtain ⟨i, b⟩ := p
    simp [collectPagesFromBytes, ih]

/-- `create_pdf_from_page_bytes` with an always-succeeding decoder:
`NoPages` on the empty input, otherwise the document holds exactly the
input pages in input order. -/
theorem create_pdf_from_page_bytes_id (l : List (Nat × String)) :
    create_pdf_from_page_bytes (fun b => some b) l =
      (if l.isEmpty then Except.error noPagesMsg else Except.ok (l.map Prod.snd)) := by
  rw [create_pdf_from_page_bytes, collectPagesFromBytes_id]
  cases l with
  | nil => rfl
  | cons p rest => rfl

/-- The PDF block returns a path exactly when a document was requested,
and an error exactly when a document was requested but not saved. -/
theorem pdfPhase_document_fields (cfg : Config) (w : World) (saved : Nat)
    (saved_files : List String) (page_bytes : List (Nat × String)) :
    ((pdfPhase cfg w saved saved_files page_bytes).2.1.isSome = cfg.create_pdf) ∧
    ((pdfPhase cfg w saved saved_files page_bytes).2.2.isSome =
      (cfg.create_pdf &&
        !((pdfPhase cfg w saved saved_files page_bytes).1.any Effect.isSavePdf))) := by
  cases hc : cfg.create_pdf with
  | false => simp [pdfPhase, hc]
  | true =>
    by_cases hsv : 0 < saved
    · rcases ha : (if cfg.pdf_only then create_pdf_from_page_bytes w.decodeBytes page_bytes
          else create_pdf_from_images w.decodeFile saved_files) with e | doc
      · simp [pdfPhase, hc, hsv, ha, Effect.isSavePdf]
      · simp [pdfPhase, hc, hsv, ha, Effect.isSavePdf]
    · simp [pdfPhase, hc, hsv, Effect.isSavePdf]

/-- `runFetchPhase` report invariant: `pdf_path` is set exactly when a
document was requested, `pdf_error` exactly when a document was requested
but no document-save effect happened. -/
theorem runFetchPhase_document_fields (cfg : Config) (w : World)
    (images : List (String × String)) :
    ((runFetchPhase cfg w images).2.pdf_path.isSome = cfg.create_pdf) ∧
    ((runFetchPhase cfg w images).2.pdf_error.isSome =
      (cfg.create_pdf &&
        !((runFetchPhase cfg w images).1.any Effect.isSavePdf))) := by
  unfold runFetchPhase
  simp only
  rw [List.any_append]
  have hfl : ((fetchLoop (effectiveWorkers (coerceWorkers cfg.max_workers) images.length)
      cfg.pdf_only cfg.output_dir w.fetch (enumerateFrom 1 images) w.order).1.any
        Effect.isSavePdf) = false := by
    rw [fetchLoop]
    exact fetchFold_any_savePdf cfg.pdf_only cfg.output_dir w.fetch
      (enumerateFrom 1 images) w.order ([], initFetchState)
  rw [hfl]
  simp only [Bool.false_or]
  exact pdfPhase_document_fields cfg w _ _ _

/-! ### Claims -/

/-- Claim C1 (amended).  In every report returned by `download_manga`,
`pdf_path` is non-null if and only if a document was *requested*
(`create_pdf`), even when assembly failed or was skipped — the code sets
the path before attempting assembly (source line 234) — and `pdf_error`
is non-null if and only if a document was requested but no document was
actually saved (no `savePdf` effect in the trace). -/
theorem c1_document_fields (cfg : Config) (w : World) (effs : List Effect) (r : Report)
    (h : download_manga cfg w = (effs, Except.ok r)) :
    (r.pdf_path.isSome = cfg.create_pdf) ∧
    (r.pdf_error.isSome = (cfg.create_pdf && !(effs.any Effect.isSavePdf))) := by
  unfold download_manga at h
  by_cases hcfg : (cfg.pdf_only && !cfg.create_pdf) = true
  · rw [if_pos hcfg] at h
    have h2 := congrArg Prod.snd h
    simp at h2
  · rw [if_neg hcfg] at h
    rcases hex : extractImages w.html with e | images
    · rw [hex] at h
      have h2 := congrArg Prod.snd h
      simp at h2
    · rw [hex] at h
      have h1 := congrArg Prod.fst h
      have h2 := congrArg Prod.snd h
      simp only at h1 h2
      have hr : (runFetchPhase cfg w images).2 = r := by
        simpa using h2
      have he : ([Effect.makeDirs cfg.output_dir] ++ [Effect.netGet cfg.url]) ++
          (runFetchPhase cfg w images).1 = effs := by
        simpa using h1
      have hmain := runFetchPhase_document_fields cfg w images
      rw [hr] at hmain
      refine ⟨hmain.1, ?_⟩
      rw [hmain.2, ← he]
      simp [List.any_append, Effect.isSavePdf]

/-- Claim C1 (counterexample to the claim as stated).  A run whose only
fetch fails: the document step is skipped for zero successes, no
document-save effect occurs, yet the returned report carries
`pdf_path = some "out/chapter.pdf"` — a phantom document path. -/
theorem c1_phantom_document_path :
    (download_manga c1BadConfig c1BadWorld).2 = Except.ok c1BadReport ∧
    c1BadReport.pdf_path = some "out/chapter.pdf" ∧
    c1BadReport.saved = 0 ∧
    c1BadReport.pdf_error = some noDownloadedMsg ∧
    ((download_manga c1BadConfig c1BadWorld).1.any Effect.isSavePdf) = false :=
  ⟨rfl, rfl, rfl, rfl, rfl⟩

/-- Claim C1 witness: the amended theorem applied to a concrete
successful document-only run. -/
theorem c1_document_fields_witness :
    (c1OkReport.pdf_path.isSome = c1OkConfig.create_pdf) ∧
    (c1OkReport.pdf_error.isSome =
      (c1OkConfig.create_pdf && !(c1OkEffects.any Effect.isSavePdf))) :=
  c1_document_fields c1OkConfig c1OkWorld c1OkEffects c1OkReport rfl

/-- Claim C2 (amended).  Calling `download_manga` with `pdf_only=True` and
`create_pdf=False` raises the configuration `ValueError` before any
network request — the trace holds no `netGet` — but *after* the one
filesystem side effect `os.makedirs(output_dir)` (source line 132), which
precedes the option check (lines 133-134). -/
theorem c2_config_error_before_network (cfg : Config) (w : World)
    (h1 : cfg.pdf_only = true) (h2 : cfg.create_pdf = false) :
    download_manga cfg w =
      ([Effect.makeDirs cfg.output_dir],
       Except.error (PyErr.valueError pdfOnlyNeedsPdfMsg)) := by
  simp [download_manga, h1, h2]

/-- Claim C2 (counterexample to the claim as stated): in the rejected
configuration the trace already contains the directory-creation effect,
so the rejection does not precede every I/O side effect. -/
theorem c2_makedirs_before_rejection :
    Effect.makeDirs "manga" ∈ (download_manga c2Config c2World).1 ∧
    (download_manga c2Config c2World).2 =
      Except.error (PyErr.valueError pdfOnlyNeedsPdfMsg) :=
  ⟨List.mem_singleton.mpr rfl, rfl⟩

/-- Claim C2 witness: the amended theorem applied to a concrete invalid
configuration. -/
theorem c2_config_error_witness :
    download_manga c2Config c2World =
      ([Effect.makeDirs c2Config.output_dir],
       Except.error (PyErr.valueError pdfOnlyNeedsPdfMsg)) :=
  c2_config_error_before_network c2Config c2World rfl rfl

/-- Claim C3 (counterexample to the claim as stated).  On the input of the
spec's scenario — marker followed by
`[['http://cdn/a','','p1.jpg'],['http://cdn/b','','p2.jpg']]`, page paths
single-quoted — the extraction pattern of source line 148 (which demands
a double-quoted third field) matches nothing, so extraction yields zero
descriptors and raises, not the claimed two descriptors. -/
theorem c3_single_quoted_input_yields_none :
    extractImages c3SpecInput = Except.error (PyErr.valueError noImagesMsg) :=
  rfl

/-- Claim C3 (amended).  With the page paths double-quoted —
`[['http://cdn/a','',"p1.jpg"],['http://cdn/b','',"p2.jpg"]]` — the
extractor returns exactly 2 descriptors, index 1 with base
`http://cdn/a` and path `p1.jpg`, index 2 with base `http://cdn/b` and
path `p2.jpg`. -/
theorem c3_double_quoted_extraction :
    extractImages c3CodeInput = Except.ok c3Images ∧
    enumerateFrom 1 c3Images =
      [(1, ("http://cdn/a", "p1.jpg")), (2, ("http://cdn/b", "p2.jpg"))] :=
  ⟨rfl, rfl⟩

/-- Claim C4.  For every descriptor list, every mix of per-page successes
and failures, every completion order of the pool (any permutation of the
1-based indices) and any requested concurrency in
`[1, MAX_DOWNLOAD_WORKERS]`, after the fetch phase the `saved` count of
the report (computed exactly as in source line 227) plus the number of
failures equals the number of descriptors, in both modes: no page is lost
and none is double-counted. -/
theorem c4_fetch_partition (pdf_only : Bool) (output_dir : String)
    (fetch : Nat → Except String (String × String)) (images : List (String × String))
    (order : List Nat) (wreq : Int)
    (_hw : 1 ≤ wreq ∧ wreq ≤ MAX_DOWNLOAD_WORKERS)
    (hord : order.Perm (List.range' 1 images.length)) :
    (if pdf_only then
        (sortedItems ((fetchLoop (effectiveWorkers wreq images.length) pdf_only output_dir
            fetch (enumerateFrom 1 images) order).2.page_bytes_by_index)).length
      else
        ((sortedItems ((fetchLoop (effectiveWorkers wreq images.length) pdf_only output_dir
            fetch (enumerateFrom 1 images) order).2.saved_by_index)).map Prod.snd).length)
      + (fetchLoop (effectiveWorkers wreq images.length) pdf_only output_dir fetch
          (enumerateFrom 1 images) order).2.failed.length
      = images.length := by
  have hnd : order.Nodup := hord.symm.nodup (List.nodup_range' 1 images.length)
  have hlen : order.length = images.length := by
    rw [hord.length_eq, List.length_range']
  have hmeasure := fetchFold_measure pdf_only output_dir fetch (enumerateFrom 1 images)
      order ([], initFetchState) hnd
      (fun k _ => ⟨by simp [initFetchState], by simp [initFetchState]⟩)
  simp only [initFetchState, List.length_nil] at hmeasure
  simp only [fetchLoop, initFetchState]
  cases pdf_only with
  | true =>
    have hsv := fetchFold_saved_of_pdf_only output_dir fetch (enumerateFrom 1 images)
        order ([], initFetchState)
    simp only [initFetchState] at hsv
    rw [if_pos rfl, sortedItems_length]
    rw [hsv] at hmeasure
    simp only [List.length_nil] at hmeasure
    omega
  | false =>
    have hpg := fetchFold_pages_of_not_pdf_only output_dir fetch (enumerateFrom 1 images)
        order ([], initFetchState)
    simp only [initFetchState] at hpg
    rw [if_neg (by simp), List.length_map, sortedItems_length]
    rw [hpg] at hmeasure
    simp only [List.length_nil] at hmeasure
    omega

/-- Claim C4 witness: three descriptors, page 2 failing, completions
observed in reversed order, requested concurrency 4. -/
theorem c4_fetch_partition_witness :
    (if false then
        (sortedItems ((fetchLoop (effectiveWorkers 4 c4Images.length) false "out"
            c4Fetch (enumerateFrom 1 c4Images) [3, 2, 1]).2.page_bytes_by_index)).length
      else
        ((sortedItems ((fetchLoop (effectiveWorkers 4 c4Images.length) false "out"
            c4Fetch (enumerateFrom 1 c4Images) [3, 2, 1]).2.saved_by_index)).map Prod.snd).length)
      + (fetchLoop (effectiveWorkers 4 c4Images.length) false "out" c4Fetch
          (enumerateFrom 1 c4Images) [3, 2, 1]).2.failed.length
      = c4Images.length :=
  c4_fetch_partition false "out" c4Fetch c4Images [3, 2, 1] 4 (by decide) (by decide)

/-- Claim C5.  For every mix of fetch results and every completion order
(including a fully reversed one), the success list handed to the document
assembler — `page_bytes` in document-only mode, `saved_files` otherwise,
both built by source lines 225-226 — is sorted strictly ascending by the
original descriptor index, and `create_pdf_from_page_bytes` (with a
decoder accepting every page, here the identity) preserves that order
page for page, so the assembled document's page order is ascending in the
original indices. -/
theorem c5_assembly_order_sorted (ew : Int) (output_dir : String)
    (fetch : Nat → Except String (String × String))
    (descs : List (Nat × String × String)) (order : List Nat) :
    List.Chain' (· < ·)
      ((sortedItems
        ((fetchLoop ew true output_dir fetch descs order).2.page_bytes_by_index)).map
          Prod.fst) ∧
    List.Chain' (· < ·)
      ((sortedItems
        ((fetchLoop ew false output_dir fetch descs order).2.saved_by_index)).map
          Prod.fst) ∧
    create_pdf_from_page_bytes (fun b => some b)
        (sortedItems ((fetchLoop ew true output_dir fetch descs order).2.page_bytes_by_index)) =
      (if (sortedItems
            ((fetchLoop ew true output_dir fetch descs order).2.page_bytes_by_index)).isEmpty
       then Except.error noPagesMsg
       else Except.ok ((sortedItems
          ((fetchLoop ew true output_dir fetch descs order).2.page_bytes_by_index)).map
            Prod.snd)) := by
  have hkn := fetchFold_keys_nodup true output_dir fetch descs order ([], initFetchState)
    (by simp [initFetchState]) (by simp [initFetchState])
  have hkn' := fetchFold_keys_nodup false output_dir fetch descs order ([], initFetchState)
    (by simp [initFetchState]) (by simp [initFetchState])
  simp only [fetchLoop]
  refine ⟨?_, ?_, create_pdf_from_page_bytes_id _⟩
  · rw [sortedItems_map_fst, sortedKeysOf]
    exact chain_lt_of_sorted_nodup (List.sorted_insertionSort _ _)
      ((List.perm_insertionSort _ _).symm.nodup hkn.2)
  · rw [sortedItems_map_fst, sortedKeysOf]
    exact chain_lt_of_sorted_nodup (List.sorted_insertionSort _ _)
      ((List.perm_insertionSort _ _).symm.nodup hkn'.1)

/-- The MIME table lookup with its `.jpg` default only ever produces the
three canonical extensions. -/
theorem lookupContentType_cases (mime : String) :
    lookupContentType mime = ".jpg" ∨ lookupContentType mime = ".png" ∨
    lookupContentType mime = ".webp" := by
  unfold lookupContentType
  rcases hf : CONTENT_TYPE_TO_EXTENSION.find? (fun p => p.1 == mime) with _ | p <;> rw [hf]
  · simp
  · have hmem := List.mem_of_find?_eq_some hf
    simp only [CONTENT_TYPE_TO_EXTENSION, List.mem_cons, List.not_mem_nil, or_false] at hmem
    rcases hmem with h | h | h | h <;> subst h <;> simp

/-- `enumerate(l, i)` numbers the elements `i, i+1, ...`. -/
theorem enumerateFrom_map_fst {α : Type} : ∀ (i : Nat) (l : List α),
    (enumerateFrom i l).map Prod.fst = List.range' i l.length := by
  intro i l
  induction l generalizing i with
  | nil => rfl
  | cons a l ih => simp [enumerateFrom, List.range'_succ, ih]

/-- `enumerate(l, i)` keeps the elements in source order. -/
theorem enumerateFrom_map_snd {α : Type} : ∀ (i : Nat) (l : List α),
    (enumerateFrom i l).map Prod.snd = l := by
  intro i l
  induction l generalizing i with
  | nil => rfl
  | cons a l ih => simp [enumerateFrom, ih]

/-- Claim C6.  The effective concurrency of the pool (source line 160)
equals the spec's `clamp(w, 1, min(MAX_WORKERS, N))` for every requested
worker count `w` and every descriptor count `N ≥ 1`; in particular for
`N = 10` descriptors and requested `w = 50` it is
`min(10, MAX_WORKERS) = 10`. -/
theorem c6_effective_concurrency :
    (∀ (wreq : Int) (N : Nat), 1 ≤ N →
        effectiveWorkers wreq N =
          clampSpec wreq 1 (min MAX_DOWNLOAD_WORKERS (Int.ofNat N))) ∧
    effectiveWorkers 50 10 = 10 ∧
    min (10 : Int) MAX_DOWNLOAD_WORKERS = 10 := by
  refine ⟨?_, by decide, by decide⟩
  intro wreq N hN
  unfold effectiveWorkers clampSpec MAX_DOWNLOAD_WORKERS
  simp only [Int.ofNat_eq_coe, min_def, max_def]
  split_ifs <;> omega

/-- Claim C6 witness: the clamp equation at `N = 10`, `w = 50`. -/
theorem c6_effective_concurrency_witness :
    effectiveWorkers 50 10 = clampSpec 50 1 (min MAX_DOWNLOAD_WORKERS (Int.ofNat 10)) :=
  c6_effective_concurrency.1 50 10 (by decide)

/-- Characters of the remainder of `scanTo` come from the input. -/
theorem mem_of_mem_scanTo_snd {stop : Char} :
    ∀ {l : List Char} {c : Char}, c ∈ (scanTo stop l).2 → c ∈ l := by
  intro l
  induction l with
  | nil => intro c h; simp [scanTo] at h
  | cons a as ih =>
    intro c h
    by_cases ha : a == stop
    · rw [scanTo, if_pos ha] at h
      exact h
    · rw [scanTo, if_neg ha] at h
      exact List.mem_cons_of_mem a (ih h)

/-- Characters of the after-scheme part come from the input. -/
theorem mem_of_mem_splitSchemeL_snd {l : List Char} {c : Char}
    (h : c ∈ (splitSchemeL l).2) : c ∈ l := by
  simp only [splitSchemeL] at h
  split at h
  · exact h
  next x tail heq =>
    split at h
    · exact h
    next c0 cs heq2 =>
      split at h
      · exact mem_of_mem_scanTo_snd (heq ▸ List.mem_cons_of_mem x h)
      · exact h

/-- Characters of the netloc come from the input. -/
theorem mem_of_mem_urlsplitNetloc_fst {l : List Char} {c : Char}
    (h : c ∈ (urlsplitNetloc l).1) : c ∈ l := by
  unfold urlsplitNetloc at h
  split at h
  next rest =>
    have hc : c ∈ rest := (rest.takeWhile_sublist _).subset h
    exact List.mem_cons_of_mem _ (List.mem_cons_of_mem _ hc)
  next => simp at h

/-- On a URL all of whose characters are ASCII and none of which is a
bracket, `urlparse` succeeds: the netloc is ASCII, so `_checknetloc`
returns at its fast path and no bracket check fires (the hypothesis also
keeps clear of CPython 3.11's bracketed-host validation). -/
theorem pyUrlparsePath_ok_of_ascii (url : String)
    (h : ∀ c ∈ url.data, c.toNat ≤ 127 ∧ c ≠ '[' ∧ c ≠ ']') :
    ∃ p, pyUrlparsePath url = Except.ok p := by
  have hmemnl : ∀ c ∈ (urlsplitNetloc (splitSchemeL
      (url.data.filter (fun c => !(c == '\t' || c == '\x0d' || c == '\n')))).2).1,
      c ∈ url.data := by
    intro c hc
    exact List.mem_of_mem_filter
      (mem_of_mem_splitSchemeL_snd (mem_of_mem_urlsplitNetloc_fst hc))
  have hnb : ¬((('[' ∈ (urlsplitNetloc (splitSchemeL
        (url.data.filter (fun c => !(c == '\t' || c == '\x0d' || c == '\n')))).2).1) ∧
        (']' ∉ (urlsplitNetloc (splitSchemeL
        (url.data.filter (fun c => !(c == '\t' || c == '\x0d' || c == '\n')))).2).1)) ∨
      ((']' ∈ (urlsplitNetloc (splitSchemeL
        (url.data.filter (fun c => !(c == '\t' || c == '\x0d' || c == '\n')))).2).1) ∧
        ('[' ∉ (urlsplitNetloc (splitSchemeL
        (url.data.filter (fun c => !(c == '\t' || c == '\x0d' || c == '\n')))).2).1))) := by
    rintro (⟨h1, _⟩ | ⟨h1, _⟩)
    · exact (h '[' (hmemnl _ h1)).2.1 rfl
    · exact (h ']' (hmemnl _ h1)).2.2 rfl
  have hcn : _checknetloc (urlsplitNetloc (splitSchemeL
      (url.data.filter (fun c => !(c == '\t' || c == '\x0d' || c == '\n')))).2).1 =
      Except.ok () := by
    unfold _checknetloc
    rw [if_pos (Or.inr (fun c hc => (h c (hmemnl c hc)).1))]
  simp only [pyUrlparsePath, hcn]
  rw [if_neg hnb]
  by_cases hu : (String.mk (splitSchemeL
      (url.data.filter (fun c => !(c == '\t' || c == '\x0d' || c == '\n')))).1) ∈ uses_params
  · exact ⟨_, by rw [if_pos hu]⟩
  · exact ⟨_, by rw [if_neg hu]⟩

/-- Whenever `_detect_extension` returns without raising, the returned
extension is one of the three canonical ones. -/
theorem detect_extension_ok_mem (url ct ext : String)
    (h : _detect_extension url ct = Except.ok ext) :
    ext = ".jpg" ∨ ext = ".png" ∨ ext = ".webp" := by
  simp only [_detect_extension] at h
  rcases hp : pyUrlparsePath url with e | p
  · rw [hp] at h
    simp at h
  · rw [hp] at h
    simp only at h
    by_cases hm : strLower (pySplitextExt p) ∈ ALLOWED_EXTENSIONS
    · rw [if_pos hm] at h
      have he := Except.ok.inj h
      have hmm := hm
      simp only [ALLOWED_EXTENSIONS, List.mem_cons, List.not_mem_nil, or_false] at hmm
      rcases hmm with hx | hx | hx | hx | hx <;> rw [hx] at he <;> rw [← he] <;> decide
    · rw [if_neg hm] at h
      have he := Except.ok.inj h
      rw [← he]
      exact lookupContentType_cases _

/-- Claim C7 (counterexample to the claim as stated).  `_detect_extension`
is not total: on `http://℀/x.jpg` the unguarded `urlparse` call raises —
the netloc U+2100 NFKC-normalizes to `a/c` — and the `ValueError`
propagates out of the classifier. -/
theorem c7_urlparse_raises :
    _detect_extension c7BadUrl "" =
      Except.error
        ("netloc \x27\u2100\x27 contains invalid characters under NFKC normalization") :=
  rfl

/-- Claim C7 (amended).  Whenever `_detect_extension` returns — in
particular on every URL made of non-bracket ASCII characters, where
`urlparse` cannot raise — it returns one of `.jpg`, `.png`, `.webp`,
following the algorithm: a recognized URL-path extension is normalized
(`.jpeg` to `.jpg`, the `.wepb` typo to `.webp`), otherwise the
parameter-stripped, lower-cased content type is looked up in the fixed
MIME table with default `.jpg`.  It is not total on all string pairs:
`urlparse`'s NFKC netloc check raises on some non-ASCII netlocs and the
exception propagates. -/
theorem c7_classifier_range :
    (∀ url ct ext : String, _detect_extension url ct = Except.ok ext →
        (ext = ".jpg" ∨ ext = ".png" ∨ ext = ".webp")) ∧
    (∀ url ct : String, (∀ c ∈ url.data, c.toNat ≤ 127 ∧ c ≠ '[' ∧ c ≠ ']') →
        ∃ ext, _detect_extension url ct = Except.ok ext ∧
          (ext = ".jpg" ∨ ext = ".png" ∨ ext = ".webp")) := by
  refine ⟨detect_extension_ok_mem, ?_⟩
  intro url ct h
  obtain ⟨p, hp⟩ := pyUrlparsePath_ok_of_ascii url h
  have hex : ∃ ext, _detect_extension url ct = Except.ok ext := by
    simp only [_detect_extension, hp]
    by_cases hm : strLower (pySplitextExt p) ∈ ALLOWED_EXTENSIONS
    · rw [if_pos hm]
      exact ⟨_, rfl⟩
    · rw [if_neg hm]
      exact ⟨_, rfl⟩
  obtain ⟨ext, hext⟩ := hex
  exact ⟨ext, hext, detect_extension_ok_mem url ct ext hext⟩

/-- Claim C7 witness: the amended theorem applied at the ASCII URL
`http://x/a.png` with empty content type, whose classification evaluates
to `.png`. -/
theorem c7_classifier_range_witness :
    ".png" = ".jpg" ∨ ".png" = ".png" ∨ ".png" = ".webp" :=
  c7_classifier_range.1 "http://x/a.png" "" ".png" rfl

/-- Claim C8.  For every input, extraction followed by
`enumerate(images, 1)` yields descriptors whose indices are exactly
`1..K` (`K` the number of matches), strictly ascending and contiguous,
with the descriptors in source order of the matches. -/
theorem c8_extract_indices_contiguous (input : List Char) :
    (enumerateFrom 1 (findallImages input)).map Prod.fst =
      List.range' 1 (findallImages input).length ∧
    List.Chain' (· < ·) ((enumerateFrom 1 (findallImages input)).map Prod.fst) ∧
    (enumerateFrom 1 (findallImages input)).map Prod.snd = findallImages input := by
  refine ⟨enumerateFrom_map_fst 1 _, ?_, enumerateFrom_map_snd 1 _⟩
  rw [enumerateFrom_map_fst]
  exact (List.pairwise_lt_range' 1 _).chain'

/-- Claim C9.  Assembling an empty page sequence fails with the
`NoPages` `ValueError` of `_save_pdf_pages` — for both assemblers and
every decoder — and, the error being raised before `first_page.save`,
no output file is written (an `Except.error` result writes nothing in
this model). -/
theorem c9_empty_assembly_fails :
    (∀ decode : String → Option String,
        create_pdf_from_page_bytes decode [] = Except.error noPagesMsg) ∧
    (∀ decode : String → Option String,
        create_pdf_from_images decode [] = Except.error noPagesMsg) :=
  ⟨fun _ => rfl, fun _ => rfl⟩

/-- Claim C10.  When `int(max_workers)` raises (`max_workers = none` in
the model), `download_manga` does not fail: it substitutes
`DEFAULT_DOWNLOAD_WORKERS = 8` before the clamp, and the whole run —
effects and result — is identical to a run requesting 8 workers. -/
theorem c10_invalid_workers_fallback :
    coerceWorkers none = DEFAULT_DOWNLOAD_WORKERS ∧
    DEFAULT_DOWNLOAD_WORKERS = 8 ∧
    ∀ (cfg : Config) (w : World),
      download_manga { cfg with max_workers := none } w =
        download_manga { cfg with max_workers := some 8 } w :=
  ⟨rfl, rfl, fun _ _ => rfl⟩
